import Mathlib

/-!
Shallow embedding of the Code-Scanner-rs scanning pipeline
(src/config.rs, src/scanner.rs, src/utils.rs) together with proofs about
its filtering, configuration merging, sorting and rendering behaviour.

Conventions of the embedding:
* Rust HashSet-of-String fields are modelled as `List String`; the only
  operation the program performs on them is membership (`contains`) and
  emptiness, both order-insensitive.
* u64 sizes are modelled as `Nat`; the program only compares sizes and
  adds them, never wraps.
* Filesystem effects are reified as data: an `Entry` carries the outcome
  of the metadata call (`Option Nat`), of the raw-byte read used by the
  binary sniff (`Option (List Nat)`), and of the utf-8 text read
  (`Option String`), mirroring the three independent system calls made by
  the source.
* String lowercasing is ASCII character-wise, matching the source on all
  inputs relevant here.
-/

namespace CodeScanner

/-- Configuration model of src/config.rs: which files and directories are
scanned. String sets are modelled as lists; sizes as Nat. -/
structure ProjectConfig where
  code_extensions : List String
  ignore_dirs : List String
  ignore_files : List String
  ignore_extensions : List String
  max_file_size : Nat
  deriving Repr, DecidableEq

/-- Default configuration, field for field the literals of
ProjectConfig::default in src/config.rs. -/
def default_config : ProjectConfig :=
  { code_extensions :=
      [ "js", "jsx", "ts", "tsx", "html", "css", "scss", "vue", "json",
        "py", "java", "kt", "rs", "go", "rb", "php", "cs",
        "c", "cpp", "h", "hpp", "swift", "dart",
        "md", "yaml", "yml", "toml", "xml", "sh", "bash", "sql", "txt",
        "dockerfile", "makefile" ]
    ignore_dirs :=
      [ "node_modules", "dist", "build", "target", "bin", "obj",
        ".git", ".idea", ".vscode", ".next", ".nuxt",
        "__pycache__", "venv", "env", ".venv", "coverage",
        "pods", "deriveddata" ]
    ignore_files :=
      [ ".ds_store", "thumbs.db", "package-lock.json", "yarn.lock",
        "pnpm-lock.yaml", "cargo.lock", "gemfile.lock", "go.sum" ]
    ignore_extensions :=
      [ "png", "jpg", "jpeg", "gif", "ico", "svg", "woff", "woff2", "ttf",
        "eot", "mp3", "mp4", "avi", "mov", "zip", "tar", "gz", "7z", "rar",
        "exe", "dll", "so", "dylib", "class", "jar", "pyc", "pyo", "pyd" ]
    max_file_size := 1048576 }

/-- Translation of ProjectConfig::apply_overrides in src/config.rs: the
sequence of five conditional field replacements, each guarded by
non-emptiness (positivity for the size). -/
def apply_overrides (self overrides : ProjectConfig) : ProjectConfig :=
  let s1 := if !overrides.code_extensions.isEmpty then
    { self with code_extensions := overrides.code_extensions } else self
  let s2 := if !overrides.ignore_dirs.isEmpty then
    { s1 with ignore_dirs := overrides.ignore_dirs } else s1
  let s3 := if !overrides.ignore_files.isEmpty then
    { s2 with ignore_files := overrides.ignore_files } else s2
  let s4 := if !overrides.ignore_extensions.isEmpty then
    { s3 with ignore_extensions := overrides.ignore_extensions } else s3
  if overrides.max_file_size > 0 then
    { s4 with max_file_size := overrides.max_file_size } else s4

/-- Possible states of the optional project-local .scanner-config.json
file, reifying the filesystem interaction of load_config in
src/config.rs: the file may be absent, exist but fail to read, read but
fail to parse, or parse to an override document. -/
inductive ConfigFile where
  | absent
  | unreadable
  | malformed
  | parsed (overrides : ProjectConfig)
  deriving Repr, DecidableEq

/-- Translation of load_config in src/config.rs: start from the default
configuration and apply the overrides only when the file exists, reads
and parses; every failure mode leaves the defaults untouched. -/
def load_config : ConfigFile → ProjectConfig
  | .parsed overrides => apply_overrides default_config overrides
  | _ => default_config

/-- Filesystem entry yielded by the walker (the project root itself is
skipped by the loop in collect_files and hence not modelled). relPath is
the path relative to the project root, split into components; the three
Option fields reify the metadata call, the raw read of is_binary, and the
utf-8 read of fs::read_to_string. -/
structure Entry where
  relPath : List String
  isDir : Bool
  size : Option Nat
  bytes : Option (List Nat)
  text : Option String
  deriving Repr, DecidableEq

/-- Basename of an entry: the last component of its relative path, which
coincides with path.file_name() of the absolute path in the source. -/
def Entry.fileName (e : Entry) : String :=
  e.relPath.getLastD ""

/-- ASCII lowercasing of one character, as Rust to_lowercase acts on the
ASCII range relevant to the rule sets. -/
def char_lower (c : Char) : Char :=
  if 'A' ≤ c && c ≤ 'Z' then Char.ofNat (c.toNat + 32) else c

/-- Lowercasing of a string, character by character. -/
def ascii_lower (s : String) : String :=
  String.mk (s.data.map char_lower)

/-- Lexicographic strict comparison of character lists by code point,
which on utf-8 data coincides with byte order. -/
def chars_lt : List Char → List Char → Bool
  | [], [] => false
  | [], _ :: _ => true
  | _ :: _, [] => false
  | x :: xs, y :: ys =>
    if x < y then true
    else if x = y then chars_lt xs ys
    else false

/-- Strict byte order on strings, the order Rust uses on each path
component (str and OsStr compare as byte slices). -/
def string_lt (a b : String) : Bool :=
  chars_lt a.data b.data

/-- Characters after the last dot of a file name, ignoring nothing;
returns none when the list holds no dot. Helper for rust_extension. -/
def ext_after_last_dot : List Char → Option (List Char)
  | [] => none
  | c :: cs =>
    match ext_after_last_dot cs with
    | some e => some e
    | none => if c = '.' then some cs else none

/-- Model of Rust Path::extension applied to a file name: the portion
after the final dot, none when there is no dot or when the only dot is
the leading character of a hidden file. -/
def rust_extension (name : String) : Option String :=
  match name.toList with
  | [] => none
  | _ :: cs => (ext_after_last_dot cs).map fun e => String.mk e

/-- Outcome of the per-entry branch structure of the collect_files loop in
src/scanner.rs, one constructor per continue/accept site. -/
inductive Outcome where
  | pruned
  | descend
  | rejectFile
  | rejectExt
  | rejectNotCode
  | rejectSize
  | droppedMeta
  | accepted
  deriving Repr, DecidableEq

/-- Per-entry decision logic of the loop body of collect_files in
src/scanner.rs, checks in source order: ignore_dirs on the lowercased
basename, directory descent, ignore_files, ignore_extensions on the
lowercased extension, the extension allowlist with its basename escape
hatch, metadata availability, and the size cap. -/
def classify (config : ProjectConfig) (e : Entry) : Outcome :=
  let file_name := ascii_lower e.fileName
  if config.ignore_dirs.contains file_name then .pruned
  else if e.isDir then .descend
  else if config.ignore_files.contains file_name then .rejectFile
  else
    let ext := ((rust_extension e.fileName).map ascii_lower).getD ""
    if config.ignore_extensions.contains ext then .rejectExt
    else if !ext.isEmpty && !config.code_extensions.contains ext
        && !config.code_extensions.contains file_name then .rejectNotCode
    else
      match e.size with
      | none => .droppedMeta
      | some sz => if sz > config.max_file_size then .rejectSize else .accepted

/-- Indentation of a tree line: two spaces per depth level below the first,
where depth is the component count of the relative path. -/
def tree_indent (e : Entry) : String :=
  String.join (List.replicate (e.relPath.length - 1) "  ")

/-- Tree line written for a directory that is descended into. -/
def tree_dir_line (e : Entry) : String :=
  tree_indent e ++ "├── " ++ e.fileName ++ "/"

/-- Tree line written for an accepted file. -/
def tree_file_line (e : Entry) : String :=
  tree_indent e ++ "└── " ++ e.fileName

/-- Result of the collection loop: the tree-section lines, the accepted
entries in traversal order, and the skipped counter of ScanStats. -/
structure CollectResult where
  tree : List String
  files : List Entry
  skipped : Nat
  deriving Repr, DecidableEq

/-- Translation of the loop of collect_files in src/scanner.rs, consuming
walker entries front to back: pruned entries and metadata failures leave
everything unchanged, directories add a tree line, the four counted
rejections bump the skipped counter, accepted files add a tree line and
join the file list. -/
def collect_files (config : ProjectConfig) : List Entry → CollectResult
  | [] => ⟨[], [], 0⟩
  | e :: es =>
    let r := collect_files config es
    match classify config e with
    | .pruned => r
    | .descend => ⟨tree_dir_line e :: r.tree, r.files, r.skipped⟩
    | .rejectFile => ⟨r.tree, r.files, r.skipped + 1⟩
    | .rejectExt => ⟨r.tree, r.files, r.skipped + 1⟩
    | .rejectNotCode => ⟨r.tree, r.files, r.skipped + 1⟩
    | .rejectSize => ⟨r.tree, r.files, r.skipped + 1⟩
    | .droppedMeta => r
    | .accepted => ⟨tree_file_line e :: r.tree, e :: r.files, r.skipped⟩

/-- Componentwise lexicographic comparison of relative paths, mirroring
the Ord instance of PathBuf, which compares the component sequences with
each component compared as a string. -/
def path_le : List String → List String → Bool
  | [], _ => true
  | _ :: _, [] => false
  | x :: xs, y :: ys =>
    if string_lt x y then true
    else if x = y then path_le xs ys
    else false

/-- Ordering relation on entries induced by path_le on their relative
paths; the project-root prefix shared by all absolute paths of one scan
never influences the comparison. -/
def entry_le (a b : Entry) : Prop :=
  path_le a.relPath b.relPath = true

instance : DecidableRel entry_le := fun a b =>
  inferInstanceAs (Decidable (path_le a.relPath b.relPath = true))

/-- Model of the valid_files.sort() call of process_project in
src/scanner.rs: a stable sort of the accepted entries by path order. -/
def sort_files (files : List Entry) : List Entry :=
  List.insertionSort entry_le files

/-- Relative path joined with slashes, as displayed by to_string_lossy on
the platform the reports are generated on. -/
def join_path (ps : List String) : String :=
  String.mk (List.intercalate ['/'] (ps.map String.data))

/-- Translation of is_binary in src/utils.rs over the reified result of
the open-and-read: an unopenable or unreadable file counts as binary, an
opened one is binary when the up-to-1024 bytes read contain a zero. -/
def is_binary : Option (List Nat) → Bool
  | none => true
  | some bs => (bs.take 1024).contains 0

/-- Drop one trailing carriage return, as Rust lines() does per line. -/
def strip_cr (l : List Char) : List Char :=
  if l.getLast? = some '\r' then l.dropLast else l

/-- Splitting of a character list at newline characters; the result always
has one more element than there are newlines. -/
def split_newlines : List Char → List (List Char)
  | [] => [[]]
  | c :: cs =>
    match split_newlines cs with
    | [] => [[]]
    | h :: t => if c = '\n' then [] :: h :: t else (c :: h) :: t

/-- Model of Rust str::lines: split at newlines, a final trailing newline
produces no extra empty line, and each line loses a trailing carriage
return. -/
def rust_lines (s : String) : List String :=
  let parts := split_newlines s.data
  let parts := if parts.getLast? = some [] then parts.dropLast else parts
  parts.map fun l => String.mk (strip_cr l)

/-- Left padding with spaces to a minimum character count. -/
def pad_left (s : String) (n : Nat) : String :=
  String.mk (List.replicate (n - s.length) ' ') ++ s

/-- Right padding with spaces to a minimum character count. -/
def pad_right (s : String) (n : Nat) : String :=
  s ++ String.mk (List.replicate (n - s.length) ' ')

/-- Numbered content line of the renderer, one-based. -/
def numbered_line (idx : Nat) (line : String) : String :=
  pad_left (toString (idx + 1)) 4 ++ " │ " ++ line

/-- Separator line used by the section headers and the summary: the
63-character double-bar literal of the source. -/
def sep_line : String :=
  String.mk (List.replicate 63 '═')

/-- Top border of the header box: the corner literals around 63 bars. -/
def box_top : String :=
  "╔" ++ String.mk (List.replicate 63 '═') ++ "╗"

/-- Bottom border of the header box. -/
def box_bottom : String :=
  "╚" ++ String.mk (List.replicate 63 '═') ++ "╝"

/-- Border of one file block: an edge character followed by the
61-character dash run of the source literal. -/
def file_border (edge : Char) : String :=
  String.mk (edge :: List.replicate 61 '─')

/-- Header block of write_header in src/scanner.rs: box top, project
name, project type, timestamp, box bottom. -/
def header_lines (projectName projectType now : String) : List String :=
  [ box_top,
    "║ PROJETO: " ++ pad_right projectName 45 ++ "║",
    "║ Tipo: " ++ pad_right projectType 48 ++ "║",
    "║ Data: " ++ pad_right now 48 ++ "║",
    box_bottom ]

/-- Per-file header of write_file_contents: border, relative path, size
formatted by the injected humansize collaborator, border. -/
def file_header_lines (fmtSize : Nat → String) (e : Entry) (sz : Nat) : List String :=
  [ file_border '┌',
    "│ 📄 " ++ join_path e.relPath,
    "│ 📊 Tamanho: " ++ fmtSize sz,
    file_border '├' ]

/-- Per-file footer: border line followed by the blank line produced by
the trailing newline of the final writeln. -/
def file_footer_lines : List String :=
  [ file_border '└', "" ]

/-- Body of one file block in write_file_contents: the binary placeholder
when the sniff says binary, else the numbered lines of the decoded text,
else the decode-failure placeholder. -/
def file_body (e : Entry) : List String :=
  if is_binary e.bytes then
    ["│ [Binary file or unsupported encoding - content omitted]"]
  else
    match e.text with
    | some content => (rust_lines content).enum.map fun p => numbered_line p.1 p.2
    | none => ["│ [Error reading file as UTF-8 text]"]

/-- Translation of write_file_contents in src/scanner.rs over the sorted
accepted entries: each file contributes a header block, a body and a
footer, and its size is added to the running total. A metadata failure at
this stage aborts the project (the question-mark operator), modelled as
none. -/
def write_file_contents (fmtSize : Nat → String) :
    List Entry → Option (List String × Nat)
  | [] => some ([], 0)
  | e :: es =>
    match e.size with
    | none => none
    | some sz =>
      match write_file_contents fmtSize es with
      | none => none
      | some (ls, total) =>
        some (file_header_lines fmtSize e sz ++ file_body e
          ++ file_footer_lines ++ ls, sz + total)

/-- Summary footer of write_summary in src/scanner.rs. -/
def summary_lines (fmtSize : Nat → String)
    (processed skipped total : Nat) : List String :=
  [ "", sep_line, "📊 RESUMO",
    "  ✅ Arquivos processados: " ++ toString processed,
    "  ⏭️  Arquivos ignorados (estimado): " ++ toString skipped,
    "  💾 Tamanho total do conteúdo: " ++ fmtSize total,
    sep_line ]

/-- Model of process_project in src/scanner.rs as a function from the
walker's entry sequence to the report lines: header, tree section written
during collection, sorted content section, summary. The timestamp and the
humansize formatter are injected collaborators. -/
def process_report (fmtSize : Nat → String) (projectName projectType now : String)
    (config : ProjectConfig) (entries : List Entry) : Option (List String) :=
  let r := collect_files config entries
  let sorted := sort_files r.files
  match write_file_contents fmtSize sorted with
  | none => none
  | some (content, total) =>
    some (header_lines projectName projectType now
      ++ ["", "📂 ESTRUTURA DE DIRETÓRIOS", sep_line] ++ r.tree
      ++ ["", "📄 CONTEÚDO DOS ARQUIVOS", sep_line] ++ content
      ++ summary_lines fmtSize sorted.length r.skipped total)

/-- Lowercasing of every rule-set member, the normalisation the spec
asserts to happen before comparisons; stated from the spec's words to be
compared against the source's classify, which uses members verbatim. -/
def normalize_config (c : ProjectConfig) : ProjectConfig :=
  { c with
    code_extensions := c.code_extensions.map ascii_lower
    ignore_dirs := c.ignore_dirs.map ascii_lower
    ignore_files := c.ignore_files.map ascii_lower
    ignore_extensions := c.ignore_extensions.map ascii_lower }

/-- Classification as the spec describes it, with every set member
lowercased before the comparisons. -/
def classify_normalized (config : ProjectConfig) (e : Entry) : Outcome :=
  classify (normalize_config config) e

/-- Decidable check that every member of every string set of a
configuration is already lowercase. -/
def all_lower_config (c : ProjectConfig) : Bool :=
  (c.code_extensions ++ c.ignore_dirs ++ c.ignore_files
    ++ c.ignore_extensions).all fun s => ascii_lower s == s

/-! ### Order lemmas for the path comparison -/

theorem chars_lt_irrefl : ∀ l, chars_lt l l = false
  | [] => rfl
  | c :: cs => by simp [chars_lt, chars_lt_irrefl cs]

theorem chars_lt_trans : ∀ {a b c : List Char},
    chars_lt a b = true → chars_lt b c = true → chars_lt a c = true
  | [], _ :: _, _ :: _, _, _ => rfl
  | x :: xs, y :: ys, z :: zs, hab, hbc => by
    simp only [chars_lt] at *
    split at hab
    · rename_i hxy
      split at hbc
      · rename_i hyz
        simp [lt_trans hxy hyz]
      · split at hbc
        · rename_i hyz
          subst hyz
          simp [hxy]
        · exact absurd hbc (by simp)
    · split at hab
      · rename_i hxy
        subst hxy
        split at hbc
        · rename_i hyz
          simp [hyz]
        · split at hbc
          · rename_i hyz
            subst hyz
            simp_all [chars_lt_trans hab hbc]
          · exact absurd hbc (by simp)
      · exact absurd hab (by simp)

theorem chars_trichotomy : ∀ a b : List Char,
    a = b ∨ chars_lt a b = true ∨ chars_lt b a = true
  | [], [] => Or.inl rfl
  | [], _ :: _ => Or.inr (Or.inl rfl)
  | _ :: _, [] => Or.inr (Or.inr rfl)
  | x :: xs, y :: ys => by
    rcases lt_trichotomy x y with h | h | h
    · exact Or.inr (Or.inl (by simp [chars_lt, h]))
    · subst h
      rcases chars_trichotomy xs ys with h' | h' | h'
      · exact Or.inl (by rw [h'])
      · exact Or.inr (Or.inl (by simp [chars_lt, h']))
      · exact Or.inr (Or.inr (by simp [chars_lt, h']))
    · exact Or.inr (Or.inr (by simp [chars_lt, h]))

theorem chars_lt_asymm {a b : List Char}
    (h1 : chars_lt a b = true) (h2 : chars_lt b a = true) : False := by
  have h := chars_lt_trans h1 h2
  rw [chars_lt_irrefl] at h
  exact Bool.false_ne_true h

theorem string_lt_irrefl (s : String) : string_lt s s = false :=
  chars_lt_irrefl s.data

theorem string_lt_trans {a b c : String} (h1 : string_lt a b = true)
    (h2 : string_lt b c = true) : string_lt a c = true :=
  chars_lt_trans h1 h2

theorem string_trichotomy (a b : String) :
    a = b ∨ string_lt a b = true ∨ string_lt b a = true := by
  rcases chars_trichotomy a.data b.data with h | h | h
  · cases a; cases b; exact Or.inl (congrArg String.mk h)
  · exact Or.inr (Or.inl h)
  · exact Or.inr (Or.inr h)

theorem string_lt_asymm {a b : String} (h1 : string_lt a b = true)
    (h2 : string_lt b a = true) : False :=
  chars_lt_asymm h1 h2

theorem path_le_total : ∀ a b, path_le a b = true ∨ path_le b a = true
  | [], _ => Or.inl rfl
  | _ :: _, [] => Or.inr rfl
  | x :: xs, y :: ys => by
    rcases string_trichotomy x y with h | h | h
    · subst h
      rcases path_le_total xs ys with h' | h'
      · exact Or.inl (by simp [path_le, h'])
      · exact Or.inr (by simp [path_le, h'])
    · exact Or.inl (by simp [path_le, h])
    · exact Or.inr (by simp [path_le, h])

theorem path_le_trans : ∀ {a b c},
    path_le a b = true → path_le b c = true → path_le a c = true
  | [], _, _, _, _ => rfl
  | x :: xs, y :: ys, z :: zs, hab, hbc => by
    simp only [path_le] at *
    split at hab
    · rename_i hxy
      split at hbc
      · rename_i hyz
        simp [string_lt_trans hxy hyz]
      · split at hbc
        · rename_i hyz
          subst hyz
          simp [hxy]
        · exact absurd hbc (by simp)
    · split at hab
      · rename_i hxy
        subst hxy
        split at hbc
        · rename_i hyz
          simp [hyz]
        · split at hbc
          · rename_i hyz
            subst hyz
            simp_all [path_le_trans hab hbc]
          · exact absurd hbc (by simp)
      · exact absurd hab (by simp)

theorem path_le_antisymm : ∀ {a b}, path_le a b = true → path_le b a = true → a = b
  | [], [], _, _ => rfl
  | x :: xs, y :: ys, hab, hba => by
    simp only [path_le] at hab hba
    split at hab
    · rename_i hxy
      split at hba
      · rename_i hyx
        exact absurd hyx (fun h2 => string_lt_asymm hxy h2)
      · split at hba
        · rename_i hyx
          subst hyx
          rw [string_lt_irrefl] at hxy
          exact absurd hxy (by simp)
        · exact absurd hba (by simp)
    · split at hab
      · rename_i hxy
        subst hxy
        split at hba
        · rename_i hyx
          rw [string_lt_irrefl] at hyx
          exact absurd hyx (by simp)
        · split at hba
          · rw [path_le_antisymm hab hba]
          · exact absurd hba (by simp)
      · exact absurd hab (by simp)

theorem entry_le_total (a b : Entry) : entry_le a b ∨ entry_le b a :=
  path_le_total a.relPath b.relPath

theorem entry_le_trans {a b c : Entry} (h1 : entry_le a b) (h2 : entry_le b c) :
    entry_le a c :=
  path_le_trans h1 h2

theorem sort_files_perm (l : List Entry) : List.Perm (sort_files l) l :=
  List.perm_insertionSort entry_le l

theorem sort_files_sorted (l : List Entry) : List.Sorted entry_le (sort_files l) := by
  haveI : IsTotal Entry entry_le := ⟨entry_le_total⟩
  haveI : IsTrans Entry entry_le := ⟨fun _ _ _ => entry_le_trans⟩
  exact List.sorted_insertionSort entry_le l

/-! ### Claim theorems -/

/-- C1: for every scan, the skipped counter of ScanStats equals the number
of entries rejected by the ignore-files basename check, the
ignore-extensions check, the extension-allowlist check, or the size check,
each such rejection contributing exactly one; an entry whose lowercased
basename lies in ignore_dirs is pruned without touching the counter or any
other part of the result. -/
theorem skipped_equals_counted_rejections (config : ProjectConfig) :
    (∀ entries, (collect_files config entries).skipped
      = entries.countP fun e =>
          match classify config e with
          | .rejectFile | .rejectExt | .rejectNotCode | .rejectSize => true
          | _ => false)
    ∧ (∀ e entries, classify config e = .pruned →
        collect_files config (e :: entries) = collect_files config entries) := by
  constructor
  · intro entries
    induction entries with
    | nil => rfl
    | cons e es ih =>
      rw [List.countP_cons]
      cases h : classify config e <;> simp [collect_files, h, ih]
  · intro e entries h
    simp [collect_files, h]

/-- C1 witness: under the default rules a pruned node_modules entry leaves
the collection result unchanged, and a scan of one oversized file and one
ignored-extension file counts exactly the file rejections. -/
theorem skipped_equals_counted_rejections_witness :
    collect_files default_config [⟨["node_modules"], false, some 5, none, none⟩]
      = collect_files default_config [] :=
  (skipped_equals_counted_rejections default_config).2 _ [] (by decide)

/-- C6: any entry whose lowercased basename is a member of ignore_dirs is
rejected by the very first check of the filter, file or directory alike,
before the ignore-files, extension and size checks can run, and such an
entry contributes nothing to the collection result. -/
theorem ignore_dirs_basename_prunes (config : ProjectConfig) (e : Entry)
    (h : config.ignore_dirs.contains (ascii_lower e.fileName) = true) :
    classify config e = .pruned
    ∧ ∀ entries, collect_files config (e :: entries) = collect_files config entries := by
  have h' : ascii_lower e.fileName ∈ config.ignore_dirs := by simpa using h
  have hc : classify config e = .pruned := by simp [classify, h']
  exact ⟨hc, fun entries => by simp [collect_files, hc]⟩

/-- C6 witness: a regular file literally named node_modules is pruned under
the default configuration. -/
theorem ignore_dirs_basename_prunes_witness :
    classify default_config ⟨["node_modules"], false, some 10, none, none⟩ = .pruned
    ∧ collect_files default_config [⟨["node_modules"], false, some 10, none, none⟩]
      = collect_files default_config [] :=
  ⟨(ignore_dirs_basename_prunes default_config _ (by decide)).1,
   (ignore_dirs_basename_prunes default_config _ (by decide)).2 []⟩

/-- C9: a missing, unreadable or unparsable .scanner-config.json file makes
load_config return exactly the default rule set; no failure escapes the
configuration loading. -/
theorem load_config_failures_default :
    load_config .absent = default_config
    ∧ load_config .unreadable = default_config
    ∧ load_config .malformed = default_config :=
  ⟨rfl, rfl, rfl⟩

/-- C2: an override document that parses replaces each of the five rule
fields exactly when that field is non-empty (positive for the size): the
loaded configuration is apply_overrides of the default, apply_overrides is
the field-wise choice between override and base, an override carrying only
a size keeps all four sets at their defaults, and an override carrying only
sets keeps the default size. -/
theorem override_merge_fieldwise :
    (∀ ovr, load_config (.parsed ovr) = apply_overrides default_config ovr)
    ∧ (∀ cfg ovr, apply_overrides cfg ovr =
        { code_extensions := if ovr.code_extensions.isEmpty then
            cfg.code_extensions else ovr.code_extensions
          ignore_dirs := if ovr.ignore_dirs.isEmpty then
            cfg.ignore_dirs else ovr.ignore_dirs
          ignore_files := if ovr.ignore_files.isEmpty then
            cfg.ignore_files else ovr.ignore_files
          ignore_extensions := if ovr.ignore_extensions.isEmpty then
            cfg.ignore_extensions else ovr.ignore_extensions
          max_file_size := if 0 < ovr.max_file_size then
            ovr.max_file_size else cfg.max_file_size })
    ∧ load_config (.parsed ⟨[], [], [], [], 4096⟩)
        = { default_config with max_file_size := 4096 }
    ∧ load_config (.parsed ⟨["md"], ["x"], ["y"], ["z"], 0⟩)
        = ⟨["md"], ["x"], ["y"], ["z"], default_config.max_file_size⟩ := by
  refine ⟨fun _ => rfl, fun cfg ovr => ?_, by decide, by decide⟩
  cases h1 : ovr.code_extensions.isEmpty <;>
  cases h2 : ovr.ignore_dirs.isEmpty <;>
  cases h3 : ovr.ignore_files.isEmpty <;>
  cases h4 : ovr.ignore_extensions.isEmpty <;>
  by_cases h5 : 0 < ovr.max_file_size <;>
  simp [apply_overrides, h1, h2, h3, h4, h5]

/-- Record update of the size field leaves the basename unchanged. -/
theorem fileName_set_size (e : Entry) (s : Option Nat) :
    Entry.fileName { e with size := s } = e.fileName :=
  rfl

/-- C4: an entry that reaches the size check, meaning it is a file that
passes the ignore-dirs, ignore-files, ignore-extensions and allowlist
checks, is accepted at exactly the size cap and rejected one byte above
it, with the rejection incrementing the skipped counter by one. -/
theorem size_boundary (config : ProjectConfig) (e : Entry)
    (hdir : e.isDir = false)
    (h1 : config.ignore_dirs.contains (ascii_lower e.fileName) = false)
    (h2 : config.ignore_files.contains (ascii_lower e.fileName) = false)
    (h3 : config.ignore_extensions.contains
        (((rust_extension e.fileName).map ascii_lower).getD "") = false)
    (h4 : (!(((rust_extension e.fileName).map ascii_lower).getD "").isEmpty
        && !config.code_extensions.contains
            (((rust_extension e.fileName).map ascii_lower).getD "")
        && !config.code_extensions.contains (ascii_lower e.fileName)) = false) :
    classify config { e with size := some config.max_file_size } = .accepted
    ∧ classify config { e with size := some (config.max_file_size + 1) } = .rejectSize
    ∧ (collect_files config
        [{ e with size := some (config.max_file_size + 1) }]).skipped = 1 := by
  have m1 : ascii_lower e.fileName ∉ config.ignore_dirs := by simpa using h1
  have m2 : ascii_lower e.fileName ∉ config.ignore_files := by simpa using h2
  have m3 : ((rust_extension e.fileName).map ascii_lower).getD ""
      ∉ config.ignore_extensions := by simpa using h3
  have h4' : String.isEmpty (((rust_extension e.fileName).map ascii_lower).getD "") = false →
      ((rust_extension e.fileName).map ascii_lower).getD "" ∉ config.code_extensions →
      ascii_lower e.fileName ∈ config.code_extensions := by simpa using h4
  have hacc : classify config { e with size := some config.max_file_size }
      = .accepted := by
    simp only [classify, fileName_set_size]
    simp [m1, m2, m3, hdir]
    intro hne hnc
    exact h4' hne hnc
  have hrej : classify config { e with size := some (config.max_file_size + 1) }
      = .rejectSize := by
    simp only [classify, fileName_set_size]
    simp [m1, m2, m3, hdir, Nat.lt_succ_self]
    intro hne hnc
    exact h4' hne hnc
  exact ⟨hacc, hrej, by simp [collect_files, hrej]⟩

/-- C4 witness: under the default configuration a file main.rs of exactly
1048576 bytes is accepted, and one of 1048577 bytes is rejected with the
skipped counter at one. -/
theorem size_boundary_witness :
    classify default_config ⟨["main.rs"], false, some 1048576, none, none⟩ = .accepted
    ∧ classify default_config ⟨["main.rs"], false, some 1048577, none, none⟩ = .rejectSize
    ∧ (collect_files default_config
        [⟨["main.rs"], false, some 1048577, none, none⟩]).skipped = 1 :=
  size_boundary default_config ⟨["main.rs"], false, none, none, none⟩
    (by decide) (by decide) (by decide) (by decide) (by decide)

/-- C5: a file whose sniffed byte prefix of at most 1024 bytes contains a
zero byte renders as exactly the binary placeholder line between its
header and footer blocks, contributing no numbered content line, while its
size is still added to the running total of the content section. -/
theorem binary_placeholder_keeps_size (fmtSize : Nat → String) (es : List Entry)
    (e : Entry) (sz : Nat) (bs : List Nat)
    (hsz : e.size = some sz) (hbytes : e.bytes = some bs)
    (hzero : (bs.take 1024).contains 0 = true) :
    write_file_contents fmtSize (e :: es)
      = (write_file_contents fmtSize es).map fun r =>
          (file_header_lines fmtSize e sz
            ++ ["│ [Binary file or unsupported encoding - content omitted]"]
            ++ file_footer_lines ++ r.1, sz + r.2) := by
  have hb : is_binary e.bytes = true := by rw [hbytes]; simpa [is_binary] using hzero
  have hbody : file_body e
      = ["│ [Binary file or unsupported encoding - content omitted]"] := by
    simp [file_body, hb]
  simp only [write_file_contents, hsz]
  cases h : write_file_contents fmtSize es with
  | none => simp
  | some r => cases r; simp [hbody]

/-- C5 witness: a three-byte file containing a zero byte renders as header,
placeholder and footer only, and its three bytes enter the total. -/
theorem binary_placeholder_keeps_size_witness :
    write_file_contents (fun n => toString n)
        [⟨["logo.dat"], false, some 3, some [7, 0, 9], none⟩]
      = some (file_header_lines (fun n => toString n)
            ⟨["logo.dat"], false, some 3, some [7, 0, 9], none⟩ 3
          ++ ["│ [Binary file or unsupported encoding - content omitted]"]
          ++ file_footer_lines, 3) := by
  have h := binary_placeholder_keeps_size (fun n => toString n) []
    ⟨["logo.dat"], false, some 3, some [7, 0, 9], none⟩ 3 [7, 0, 9]
    rfl rfl (by decide)
  simpa using h

/-- C8: the report is a function of the name, type, configuration, entry
sequence and size formatter alone; two runs differing only in the
timestamp produce reports that are line-for-line identical once line index
three is removed, and that line is exactly the Data header line carrying
the timestamp. -/
theorem report_deterministic_modulo_timestamp (fmtSize : Nat → String)
    (projectName projectType t1 t2 : String) (config : ProjectConfig)
    (entries : List Entry) :
    (process_report fmtSize projectName projectType t1 config entries).map
        (fun ls => ls.eraseIdx 3)
      = (process_report fmtSize projectName projectType t2 config entries).map
        (fun ls => ls.eraseIdx 3)
    ∧ (process_report fmtSize projectName projectType t1 config entries).map
        (fun ls => ls.get? 3)
      = (process_report fmtSize projectName projectType t1 config entries).map
        (fun _ => some ("║ Data: " ++ pad_right t1 48 ++ "║")) := by
  cases h : write_file_contents fmtSize
      (sort_files (collect_files config entries).files) with
  | none =>
    constructor <;> (simp only [process_report]; rw [h]; try rfl)
  | some r =>
    obtain ⟨content, total⟩ := r
    constructor <;> (simp only [process_report]; rw [h]; rfl)

/-- C3 counterexample: with the two accepted files a-b and a/c the sorted
file list puts a/c first although the full path string a-b precedes a/c in
byte order, so the content section is not rendered in ascending byte order
of full paths. -/
theorem sort_not_full_path_byte_order :
    sort_files [⟨["a-b"], false, some 1, none, none⟩,
        ⟨["a", "c"], false, some 1, none, none⟩]
      = [⟨["a", "c"], false, some 1, none, none⟩,
        ⟨["a-b"], false, some 1, none, none⟩]
    ∧ string_lt (join_path ["a-b"]) (join_path ["a", "c"]) = true := by decide

/-- C3 amended: the content section renders the accepted files sorted by
the componentwise PathBuf order, each component compared as a byte string;
the sorted list is a permutation of the collected files whose path order
is independent of the traversal order, and on the b.txt, a.txt, c/d.txt
example this gives the claimed order a.txt, b.txt, c/d.txt. -/
theorem sort_files_componentwise_order :
    (∀ l, List.Perm (sort_files l) l)
    ∧ (∀ l, List.Sorted entry_le (sort_files l))
    ∧ (∀ l l', List.Perm l l' →
        (sort_files l).map Entry.relPath = (sort_files l').map Entry.relPath)
    ∧ sort_files [⟨["b.txt"], false, some 1, none, none⟩,
        ⟨["a.txt"], false, some 1, none, none⟩,
        ⟨["c", "d.txt"], false, some 1, none, none⟩]
      = [⟨["a.txt"], false, some 1, none, none⟩,
        ⟨["b.txt"], false, some 1, none, none⟩,
        ⟨["c", "d.txt"], false, some 1, none, none⟩] := by
  refine ⟨sort_files_perm, sort_files_sorted, ?_, by decide⟩
  intro l l' hp
  haveI : IsAntisymm (List String) (fun a b => path_le a b = true) :=
    ⟨fun _ _ => path_le_antisymm⟩
  apply List.eq_of_perm_of_sorted (r := fun a b => path_le a b = true)
  · exact ((sort_files_perm l).map _).trans
      ((hp.map _).trans ((sort_files_perm l').map _).symm)
  · exact List.pairwise_map.2 ((sort_files_sorted l).imp fun h => h)
  · exact List.pairwise_map.2 ((sort_files_sorted l').imp fun h => h)

/-- C3 witness: the permutation-independence of the rendered path order,
instantiated on a two-element swap of the traversal order. -/
theorem sort_files_componentwise_order_witness :
    (sort_files [⟨["b.txt"], false, some 1, none, none⟩,
        ⟨["a.txt"], false, some 1, none, none⟩]).map Entry.relPath
      = (sort_files [⟨["a.txt"], false, some 1, none, none⟩,
        ⟨["b.txt"], false, some 1, none, none⟩]).map Entry.relPath :=
  sort_files_componentwise_order.2.2.1 _ _ (by decide)

/-- C7 counterexample: a rule-set member coming from an override, here
README in ignore_files, is compared verbatim rather than lowercased: the
source classification accepts the file README while the member-normalized
classification the claim describes rejects it. -/
theorem override_members_not_normalized :
    classify (load_config (.parsed ⟨[], [], ["README"], [], 0⟩))
        ⟨["README"], false, some 10, none, none⟩ = .accepted
    ∧ classify_normalized (load_config (.parsed ⟨[], [], ["README"], [], 0⟩))
        ⟨["README"], false, some 10, none, none⟩ = .rejectFile := by decide

/-- C7 amended: entry basenames and extensions are lowercased before each
comparison, every member of the four default rule sets is already
lowercase, and for any rule set whose members are all lowercase the
classification coincides with the member-normalized classification the
spec describes; members taken verbatim from an override enjoy no such
normalization. -/
theorem lowercase_members_normalized_agree :
    all_lower_config default_config = true
    ∧ ∀ config, all_lower_config config = true →
        ∀ e, classify_normalized config e = classify config e := by
  have key : ∀ l : List String, (∀ s ∈ l, ascii_lower s = s) →
      l.map ascii_lower = l := by
    intro l hl
    induction l with
    | nil => rfl
    | cons a t ih =>
      simp only [List.map_cons, hl a (by simp)]
      rw [ih fun s hs => hl s (by simp [hs])]
  refine ⟨by decide, fun config h e => ?_⟩
  simp only [all_lower_config, List.all_append, Bool.and_eq_true,
    List.all_eq_true, beq_iff_eq] at h
  have hmap : normalize_config config = config := by
    cases config
    simp only [normalize_config, ProjectConfig.mk.injEq, and_true]
    exact ⟨key _ h.1.1.1, key _ h.1.1.2, key _ h.1.2, key _ h.2⟩
  simp [classify_normalized, hmap]

/-- C7 witness: the agreement between source and normalized classification
applied to the default rule set on a mixed-case file name. -/
theorem lowercase_members_normalized_agree_witness :
    classify_normalized default_config ⟨["Main.RS"], false, some 3, none, none⟩
      = classify default_config ⟨["Main.RS"], false, some 3, none, none⟩ :=
  lowercase_members_normalized_agree.2 default_config (by decide) _

/-- C10 counterexample: with an override placing the empty string in
ignore_extensions, the extensionless file license passes the ignore-dirs,
ignore-files and size checks yet is rejected at the ignore-extensions step
and counted as skipped, so it is not accepted. -/
theorem extensionless_rejected_by_empty_ignore_extension :
    classify (load_config (.parsed ⟨[], [], [], [""], 0⟩))
        ⟨["license"], false, some 10, none, none⟩ = .rejectExt
    ∧ classify (load_config (.parsed ⟨[], [], [], [""], 0⟩))
        ⟨["license"], false, some 10, none, none⟩ ≠ .accepted
    ∧ rust_extension "license" = none
    ∧ (load_config (.parsed ⟨[], [], [], [""], 0⟩)).ignore_dirs.contains
        (ascii_lower "license") = false
    ∧ (load_config (.parsed ⟨[], [], [], [""], 0⟩)).ignore_files.contains
        (ascii_lower "license") = false
    ∧ 10 ≤ (load_config (.parsed ⟨[], [], [], [""], 0⟩)).max_file_size
    ∧ (collect_files (load_config (.parsed ⟨[], [], [], [""], 0⟩))
        [⟨["license"], false, some 10, none, none⟩]).skipped = 1 := by decide

/-- C10 amended: the extension allowlist check never rejects an
extensionless file, and an extensionless file that additionally passes the
ignore-dirs, ignore-files, ignore-extensions (which can match the empty
extension) and size checks is accepted even when its basename is not in
code_extensions. -/
theorem extensionless_never_allowlist_rejected :
    (∀ config e, rust_extension e.fileName = none →
        classify config e ≠ .rejectNotCode)
    ∧ (∀ config e sz, e.isDir = false →
        rust_extension e.fileName = none →
        config.ignore_dirs.contains (ascii_lower e.fileName) = false →
        config.ignore_files.contains (ascii_lower e.fileName) = false →
        config.ignore_extensions.contains "" = false →
        e.size = some sz → sz ≤ config.max_file_size →
        classify config e = .accepted) := by
  constructor
  · intro config e hx
    simp only [classify, hx]
    repeat' split
    all_goals first
      | decide
      | (rename_i hguard; exact absurd (id hguard : false = true) (by decide))
  · intro config e sz hdir hx h1 h2 h3 hsz hle
    have m1 : ascii_lower e.fileName ∉ config.ignore_dirs := by simpa using h1
    have m2 : ascii_lower e.fileName ∉ config.ignore_files := by simpa using h2
    have m3 : ("" : String) ∉ config.ignore_extensions := by simpa using h3
    have hnl : ¬ config.max_file_size < sz := not_lt.2 hle
    simp [classify, hx, hdir, m1, m2, m3, hsz, hnl]
    intro hfalse _
    exact absurd hfalse (by decide)

/-- C10 witness: an extensionless file license, absent from every default
rule set, is accepted under the default configuration. -/
theorem extensionless_never_allowlist_rejected_witness :
    classify default_config ⟨["license"], false, some 100, none, none⟩ = .accepted :=
  extensionless_never_allowlist_rejected.2 default_config
    ⟨["license"], false, some 100, none, none⟩ 100
    (by decide) (by decide) (by decide) (by decide) (by decide) (by decide) (by decide)

end CodeScanner
